import Mathlib

/-!
Formal model of pySlice's Model3D.py.

Conventions of the embedding:
* Python floats are modelled by exact rationals (ℚ).
* Comparisons of the form sqrt s == 0 or sqrt s <= 1 are translated to
  s = 0 and s <= 1 (sqrt is monotone and nonnegative, so these are exact).
* The md5 hex digest of the formatted coordinate string is modelled by the
  formatted content itself (md5 is treated as injective on those strings).
* Methods that mutate the model are state-passing functions returning the
  new model; a raised exception is an error value carrying the state at the
  moment of the raise.
-/

namespace PyModel

/-- DIFFERENCE_LIMIT = 1e-7, the per-axis tolerance used by Vector3.__eq__. -/
def DIFFERENCE_LIMIT : ℚ := 1 / 10000000

/-- Vector3: a 3D Cartesian point with rational coordinates. -/
structure Vector3 where
  x : ℚ
  y : ℚ
  z : ℚ
deriving DecidableEq

/-- Model of one coordinate of the key_string built by '%f' formatting:
the sign character together with the magnitude rounded to the nearest
multiple of 1e-6 (Python %f prints six decimal digits, rounding to
nearest; a negative value keeps its minus sign even when it rounds to
-0.000000, which is why the sign flag is kept separately). -/
def fmtCoord (q : ℚ) : Bool × ℕ :=
  (if q < 0 then true else false, (⌊q * 1000000 + 1 / 2⌋).natAbs)

/-- The content key type: the three formatted coordinates. -/
abbrev HKey := (Bool × ℕ) × (Bool × ℕ) × (Bool × ℕ)

/-- Vector3.hash: md5 of '(%f, %f, %f)' of the coordinates, modelled as the
formatted content itself. -/
def Vector3.hash (v : Vector3) : HKey :=
  (fmtCoord v.x, fmtCoord v.y, fmtCoord v.z)

/-- Vector3.__sub__. -/
def Vector3.sub (a b : Vector3) : Vector3 :=
  ⟨a.x - b.x, a.y - b.y, a.z - b.z⟩

/-- Vector3.cross. -/
def Vector3.cross (a b : Vector3) : Vector3 :=
  ⟨a.y * b.z - a.z * b.y, a.z * b.x - a.x * b.z, a.x * b.y - a.y * b.x⟩

/-- Squared length of a Vector3; Vector3.length() is its square root. -/
def Vector3.lengthSq (a : Vector3) : ℚ :=
  a.x * a.x + a.y * a.y + a.z * a.z

/-- Vector3.__eq__: each coordinate differs by less than DIFFERENCE_LIMIT. -/
def veq (a b : Vector3) : Prop :=
  |a.x - b.x| < DIFFERENCE_LIMIT ∧
  |a.y - b.y| < DIFFERENCE_LIMIT ∧
  |a.z - b.z| < DIFFERENCE_LIMIT

instance (a b : Vector3) : Decidable (veq a b) := by
  unfold veq; infer_instance

/-- Edge: a line segment between two vertices.  The refs bookkeeping list
is informational only in the source and never read by the functions
modelled here, so it is omitted. -/
structure Edge where
  start : Vector3
  stop : Vector3

/-- Edge.contains: the source tests xp.length() == 0.0 and
0.0 <= d2.length() <= 1.0, where d2 is the offset of the point from the
edge's start; the lower bound is vacuous since a length is nonnegative.
Note the source compares the LENGTH of d2 against 1, not the parametric
position of the point along the segment. -/
def Edge.contains (e : Edge) (point : Vector3) : Prop :=
  ((e.stop.sub e.start).cross (point.sub e.start)).lengthSq = 0 ∧
  (point.sub e.start).lengthSq ≤ 1

instance (e : Edge) (p : Vector3) : Decidable (e.contains p) := by
  unfold Edge.contains; infer_instance

/-- Triangle: three vertices plus a normal, as stored by Triangle.__init__
(vertices[0], vertices[1], vertices[2] are p1, p2, p3). -/
structure Triangle where
  p1 : Vector3
  p2 : Vector3
  p3 : Vector3
  norm : Vector3
deriving DecidableEq

/-- Normal.__init__: fails when the vector has zero length
(l == 0.0 with l = sqrt(dx²+dy²+dz²), i.e. the squared length is 0). -/
def mkNormal (dx dy dz : ℚ) : Except String Vector3 :=
  if dx * dx + dy * dy + dz * dz = 0 then Except.error "Length of Vector is 0"
  else Except.ok ⟨dx, dy, dz⟩

/-- Triangle.__init__: raises on p1 == p2 or p1 == p3 (note: p2 and p3 are
never compared with each other), then raises when Edge(p1, p2).contains(p3),
then stores the supplied Normal or computes one from the cross product
(p2 - p1) × (p3 - p2).  A supplied Normal instance is `some n`; `None` is
`none`. -/
def mkTriangle (p1 p2 p3 : Vector3) (norm : Option Vector3) :
    Except String Triangle :=
  if veq p1 p2 ∨ veq p1 p3 then
    Except.error "Degenerate Facet; Coincident Points"
  else if Edge.contains ⟨p1, p2⟩ p3 then
    Except.error "Degenerate Facet; Colinear Points"
  else
    match norm with
    | some n => Except.ok ⟨p1, p2, p3, n⟩
    | none =>
      let xp := (p2.sub p1).cross (p3.sub p2)
      match mkNormal xp.x xp.y xp.z with
      | Except.error e => Except.error e
      | Except.ok n => Except.ok ⟨p1, p2, p3, n⟩

/-- Triangle.findInterpolatedPoint: V = B - A, n = (targetz - A.z) / V.z,
result = (n·V.x + A.x, n·V.y + A.y).  (Division by zero yields 0 in ℚ;
the guarded call sites never pass V.z = 0, see the checked variant.) -/
def findInterpolatedPoint (A B : Vector3) (targetz : ℚ) : ℚ × ℚ :=
  let V := B.sub A
  let n := (targetz - A.z) / V.z
  (n * V.x + A.x, n * V.y + A.y)

/-- Triangle.find_interpolated_points_at_z: each of the three edges
(p1,p2), (p1,p3), (p2,p3) contributes an interpolated point when its
endpoint z values strictly straddle targetz; afterwards an if/elif/elif
chain appends the (x, y) of the FIRST vertex whose z equals targetz. -/
def Triangle.find_interpolated_points_at_z (t : Triangle) (targetz : ℚ) :
    List (ℚ × ℚ) :=
  ((if (t.p1.z > targetz ∧ t.p2.z < targetz) ∨ (t.p1.z < targetz ∧ t.p2.z > targetz)
    then [findInterpolatedPoint t.p1 t.p2 targetz] else []) ++
   (if (t.p1.z > targetz ∧ t.p3.z < targetz) ∨ (t.p1.z < targetz ∧ t.p3.z > targetz)
    then [findInterpolatedPoint t.p1 t.p3 targetz] else []) ++
   (if (t.p2.z > targetz ∧ t.p3.z < targetz) ∨ (t.p2.z < targetz ∧ t.p3.z > targetz)
    then [findInterpolatedPoint t.p2 t.p3 targetz] else [])) ++
  (if t.p1.z = targetz then [(t.p1.x, t.p1.y)]
   else if t.p2.z = targetz then [(t.p2.x, t.p2.y)]
   else if t.p3.z = targetz then [(t.p3.x, t.p3.y)]
   else [])

/-- Strict straddle of a target z value by two endpoint z values, as the
spec words it: one endpoint above and the other below. -/
def straddles (az bz targetz : ℚ) : Prop :=
  (az > targetz ∧ bz < targetz) ∨ (az < targetz ∧ bz > targetz)

instance (az bz targetz : ℚ) : Decidable (straddles az bz targetz) := by
  unfold straddles; infer_instance

/-- Interpolated point in the spec's wording: n = (targetz - A.z)/(B.z - A.z)
and the point is A + n·(B - A) in x and y. -/
def specInterp (A B : Vector3) (targetz : ℚ) : ℚ × ℚ :=
  let n := (targetz - A.z) / (B.z - A.z)
  (A.x + n * (B.x - A.x), A.y + n * (B.y - A.y))

/-- Edge contributions of the spec policy: one interpolated point per edge
whose endpoints strictly straddle targetz, edges in the source's order. -/
def specEdgePoints (t : Triangle) (targetz : ℚ) : List (ℚ × ℚ) :=
  (if straddles t.p1.z t.p2.z targetz then [specInterp t.p1 t.p2 targetz] else []) ++
  (if straddles t.p1.z t.p3.z targetz then [specInterp t.p1 t.p3 targetz] else []) ++
  (if straddles t.p2.z t.p3.z targetz then [specInterp t.p2 t.p3 targetz] else [])

/-- Vertex contributions as claim C1 words them: every vertex whose z
exactly equals targetz has its (x, y) appended once. -/
def specVertexPointsAll (t : Triangle) (targetz : ℚ) : List (ℚ × ℚ) :=
  (if t.p1.z = targetz then [(t.p1.x, t.p1.y)] else []) ++
  (if t.p2.z = targetz then [(t.p2.x, t.p2.y)] else []) ++
  (if t.p3.z = targetz then [(t.p3.x, t.p3.y)] else [])

/-- The point policy exactly as claim C1 states it. -/
def specPointsAtZClaim (t : Triangle) (targetz : ℚ) : List (ℚ × ℚ) :=
  specEdgePoints t targetz ++ specVertexPointsAll t targetz

/-- Vertex contribution as the code implements it: only the first vertex
(in order p1, p2, p3) whose z equals targetz is appended. -/
def specVertexPointFirst (t : Triangle) (targetz : ℚ) : List (ℚ × ℚ) :=
  if t.p1.z = targetz then [(t.p1.x, t.p1.y)]
  else if t.p2.z = targetz then [(t.p2.x, t.p2.y)]
  else if t.p3.z = targetz then [(t.p3.x, t.p3.y)]
  else []

/-- The amended point policy: straddling edges contribute, then only the
first z-coincident vertex is appended. -/
def specPointsAtZAmended (t : Triangle) (targetz : ℚ) : List (ℚ × ℚ) :=
  specEdgePoints t targetz ++ specVertexPointFirst t targetz

/-- Checked variant of findInterpolatedPoint: reports failure instead of
dividing when the two endpoints share their z value. -/
def findInterpolatedPointChecked (A B : Vector3) (targetz : ℚ) :
    Option (ℚ × ℚ) :=
  if (B.sub A).z = 0 then none else some (findInterpolatedPoint A B targetz)

/-- Checked variant of find_interpolated_points_at_z: every interpolation is
routed through the checked division; any division by zero would surface as
`none`. -/
def Triangle.find_points_at_z_checked (t : Triangle) (targetz : ℚ) :
    Option (List (ℚ × ℚ)) :=
  Option.bind
    (if (t.p1.z > targetz ∧ t.p2.z < targetz) ∨ (t.p1.z < targetz ∧ t.p2.z > targetz)
      then Option.map (fun c => [c]) (findInterpolatedPointChecked t.p1 t.p2 targetz)
      else some []) fun l1 =>
  Option.bind
    (if (t.p1.z > targetz ∧ t.p3.z < targetz) ∨ (t.p1.z < targetz ∧ t.p3.z > targetz)
      then Option.map (fun c => [c]) (findInterpolatedPointChecked t.p1 t.p3 targetz)
      else some []) fun l2 =>
  Option.map
    (fun l3 =>
      (l1 ++ l2 ++ l3) ++
      (if t.p1.z = targetz then [(t.p1.x, t.p1.y)]
       else if t.p2.z = targetz then [(t.p2.x, t.p2.y)]
       else if t.p3.z = targetz then [(t.p3.x, t.p3.y)]
       else []))
    (if (t.p2.z > targetz ∧ t.p3.z < targetz) ∨ (t.p2.z < targetz ∧ t.p3.z > targetz)
      then Option.map (fun c => [c]) (findInterpolatedPointChecked t.p2 t.p3 targetz)
      else some [])

/-- The interpolation formula written by the code, n·V + A, agrees with the
spec's A + n·(B - A) coordinatewise. -/
theorem findInterpolatedPoint_eq_specInterp (A B : Vector3) (targetz : ℚ) :
    findInterpolatedPoint A B targetz = specInterp A B targetz := by
  simp only [findInterpolatedPoint, specInterp, Vector3.sub, Prod.mk.injEq]
  constructor <;> ring

/-- C1 (amended): for every triangle and every targetz, the returned list is
exactly the straddling-edge contributions followed by the (x, y) of the
FIRST vertex whose z equals targetz (the source's if/elif/elif chain), each
edge point being A + n·(B - A) with n = (targetz - A.z)/(B.z - A.z). -/
theorem find_points_at_z_characterization (t : Triangle) (targetz : ℚ) :
    t.find_interpolated_points_at_z targetz = specPointsAtZAmended t targetz := by
  simp only [Triangle.find_interpolated_points_at_z, specPointsAtZAmended,
    specEdgePoints, specVertexPointFirst, straddles,
    findInterpolatedPoint_eq_specInterp]

/-- C1 counterexample: the triangle ((0,0,1), (1,0,1), (0,1,2)) is validly
constructed, and at targetz = 1 the code returns only the first coincident
vertex (0,0); the claim's policy would also append the second coincident
vertex (1,0). -/
theorem find_points_at_z_two_coincident_vertices :
    mkTriangle ⟨0, 0, 1⟩ ⟨1, 0, 1⟩ ⟨0, 1, 2⟩ (some ⟨0, 0, 1⟩) =
      Except.ok ⟨⟨0, 0, 1⟩, ⟨1, 0, 1⟩, ⟨0, 1, 2⟩, ⟨0, 0, 1⟩⟩ ∧
    Triangle.find_interpolated_points_at_z
      ⟨⟨0, 0, 1⟩, ⟨1, 0, 1⟩, ⟨0, 1, 2⟩, ⟨0, 0, 1⟩⟩ 1 = [(0, 0)] ∧
    specPointsAtZClaim ⟨⟨0, 0, 1⟩, ⟨1, 0, 1⟩, ⟨0, 1, 2⟩, ⟨0, 0, 1⟩⟩ 1 =
      [(0, 0), (1, 0)] ∧
    ([(0, 0)] : List (ℚ × ℚ)) ≠ [(0, 0), (1, 0)] := by
  refine ⟨?_, ?_, ?_, ?_⟩
  · norm_num [mkTriangle, veq, DIFFERENCE_LIMIT, Edge.contains, Vector3.sub,
      Vector3.cross, Vector3.lengthSq]
  · norm_num [Triangle.find_interpolated_points_at_z]
  · norm_num [specPointsAtZClaim, specEdgePoints, specVertexPointsAll, straddles]
  · simp

/-- C9: every interpolation performed by find_interpolated_points_at_z is
guarded by a strict straddle test, so the divisor B.z - A.z is never zero:
the checked variant never fails and agrees with the unchecked code. -/
theorem find_points_at_z_no_div_by_zero (t : Triangle) (targetz : ℚ) :
    t.find_points_at_z_checked targetz =
      some (t.find_interpolated_points_at_z targetz) := by
  have key : ∀ A B : Vector3,
      (A.z > targetz ∧ B.z < targetz) ∨ (A.z < targetz ∧ B.z > targetz) →
      findInterpolatedPointChecked A B targetz =
        some (findInterpolatedPoint A B targetz) := by
    intro A B h
    have hz : (B.sub A).z ≠ 0 := by
      simp only [Vector3.sub]
      rcases h with ⟨h1, h2⟩ | ⟨h1, h2⟩ <;> intro hc <;> nlinarith
    simp [findInterpolatedPointChecked, hz]
  have piece : ∀ A B : Vector3,
      (if (A.z > targetz ∧ B.z < targetz) ∨ (A.z < targetz ∧ B.z > targetz)
        then Option.map (fun c => [c]) (findInterpolatedPointChecked A B targetz)
        else some []) =
      some (if (A.z > targetz ∧ B.z < targetz) ∨ (A.z < targetz ∧ B.z > targetz)
        then [findInterpolatedPoint A B targetz] else []) := by
    intro A B
    split_ifs with h
    · rw [key A B h]; rfl
    · rfl
  simp only [Triangle.find_points_at_z_checked, piece]
  rfl

/-- Dot product of two vectors, used only to express the spec's projected
parametric position of a point along a segment. -/
def Vector3.dot (a b : Vector3) : ℚ :=
  a.x * b.x + a.y * b.y + a.z * b.z

/-- Containment predicate as claim C3 words it: the cross product of
(end - start) and (point - start) has length zero, and the point's
projected parametric position t = d2·d1 / d1·d1 lies in [0, 1]. -/
def specEdgeContains (e : Edge) (point : Vector3) : Prop :=
  ((e.stop.sub e.start).cross (point.sub e.start)).lengthSq = 0 ∧
  0 ≤ (point.sub e.start).dot (e.stop.sub e.start) /
      (e.stop.sub e.start).dot (e.stop.sub e.start) ∧
  (point.sub e.start).dot (e.stop.sub e.start) /
      (e.stop.sub e.start).dot (e.stop.sub e.start) ≤ 1

/-- C2 (amended): the coincidence check of Triangle.__init__ compares only
p1 with p2 and p1 with p3; whenever one of those pairs is equal by the
tolerance predicate, construction fails with the coincident-points error. -/
theorem triangle_coincident_p1_check (p1 p2 p3 : Vector3)
    (norm : Option Vector3) (h : veq p1 p2 ∨ veq p1 p3) :
    mkTriangle p1 p2 p3 norm =
      Except.error "Degenerate Facet; Coincident Points" := by
  unfold mkTriangle
  rw [if_pos h]

/-- Witness for the amended C2 theorem at a concrete coincident pair. -/
theorem triangle_coincident_p1_check_witness :
    veq ⟨0, 0, 0⟩ ⟨0, 0, 0⟩ ∧
    mkTriangle ⟨0, 0, 0⟩ ⟨0, 0, 0⟩ ⟨1, 0, 0⟩ none =
      Except.error "Degenerate Facet; Coincident Points" :=
  ⟨by norm_num [veq, DIFFERENCE_LIMIT],
   triangle_coincident_p1_check ⟨0, 0, 0⟩ ⟨0, 0, 0⟩ ⟨1, 0, 0⟩ none
     (Or.inl (by norm_num [veq, DIFFERENCE_LIMIT]))⟩

/-- C2 counterexample: p2 and p3 coincide exactly (hence are equal by the
tolerance predicate), yet with a supplied normal the construction succeeds
and produces a triangle, because the code never compares p2 with p3 and the
collinearity test misses points farther than distance 1 from p1. -/
theorem triangle_coincident_p2_p3_accepted :
    veq ⟨5, 0, 0⟩ ⟨5, 0, 0⟩ ∧
    mkTriangle ⟨0, 0, 0⟩ ⟨5, 0, 0⟩ ⟨5, 0, 0⟩ (some ⟨0, 0, 1⟩) =
      Except.ok ⟨⟨0, 0, 0⟩, ⟨5, 0, 0⟩, ⟨5, 0, 0⟩, ⟨0, 0, 1⟩⟩ := by
  constructor
  · norm_num [veq, DIFFERENCE_LIMIT]
  · norm_num [mkTriangle, veq, DIFFERENCE_LIMIT, Edge.contains, Vector3.sub,
      Vector3.cross, Vector3.lengthSq]

/-- C3: the code evaluates its containment test and the collinear-triangle
construction against the claim.  The point (2,0,0) lies on the segment from
(0,0,0) to (4,0,0) (parametric position 1/2, zero cross product), yet
Edge.contains returns False because it compares the DISTANCE |point - start|
against 1 instead of the parametric position — contradicting its own
docstring.  Consequently the collinear construction (0,0,0), (1,0,0),
(2,0,0) is not rejected by the degeneracy check: with a supplied normal it
succeeds outright, and without one it fails only in Normal.__init__ with
the zero-length-vector error, not with a DegenerateGeometry error. -/
theorem edge_contains_collinear_accepted :
    specEdgeContains ⟨⟨0, 0, 0⟩, ⟨4, 0, 0⟩⟩ ⟨2, 0, 0⟩ ∧
    ¬ Edge.contains ⟨⟨0, 0, 0⟩, ⟨4, 0, 0⟩⟩ ⟨2, 0, 0⟩ ∧
    mkTriangle ⟨0, 0, 0⟩ ⟨1, 0, 0⟩ ⟨2, 0, 0⟩ (some ⟨0, 0, 1⟩) =
      Except.ok ⟨⟨0, 0, 0⟩, ⟨1, 0, 0⟩, ⟨2, 0, 0⟩, ⟨0, 0, 1⟩⟩ ∧
    mkTriangle ⟨0, 0, 0⟩ ⟨1, 0, 0⟩ ⟨2, 0, 0⟩ none =
      Except.error "Length of Vector is 0" := by
  refine ⟨?_, ?_, ?_, ?_⟩
  · norm_num [specEdgeContains, Vector3.sub, Vector3.cross, Vector3.lengthSq,
      Vector3.dot]
  · norm_num [Edge.contains, Vector3.sub, Vector3.cross, Vector3.lengthSq]
  · norm_num [mkTriangle, veq, DIFFERENCE_LIMIT, Edge.contains, Vector3.sub,
      Vector3.cross, Vector3.lengthSq]
  · norm_num [mkTriangle, veq, DIFFERENCE_LIMIT, Edge.contains, Vector3.sub,
      Vector3.cross, Vector3.lengthSq, mkNormal]

/-- C6 (amended): the content key is deterministic, and two points whose
coordinates have the same 6-decimal formatted representation (the same
fmtCoord value on every axis) share the same key, however they were
constructed.  Agreement of the first six decimal digits alone is NOT
enough, because percent-f rounds to nearest (see the counterexample). -/
theorem key_deterministic_and_format_sharing (p q : Vector3) :
    p.hash = p.hash ∧
    ((fmtCoord p.x = fmtCoord q.x ∧ fmtCoord p.y = fmtCoord q.y ∧
      fmtCoord p.z = fmtCoord q.z) → p.hash = q.hash) := by
  refine ⟨rfl, fun h => ?_⟩
  simp only [Vector3.hash, h.1, h.2.1, h.2.2]

/-- Witness: 0.1234561 and 0.1234562 format identically at six decimals, so
the two distinct points share a key. -/
theorem key_deterministic_and_format_sharing_witness :
    (fmtCoord (1234561 / 10000000) = fmtCoord (1234562 / 10000000 : ℚ) ∧
     fmtCoord (0 : ℚ) = fmtCoord (0 : ℚ) ∧ fmtCoord (0 : ℚ) = fmtCoord (0 : ℚ)) ∧
    Vector3.hash ⟨1234561 / 10000000, 0, 0⟩ =
      Vector3.hash ⟨1234562 / 10000000, 0, 0⟩ :=
  ⟨⟨by norm_num [fmtCoord], rfl, rfl⟩,
   (key_deterministic_and_format_sharing ⟨1234561 / 10000000, 0, 0⟩
      ⟨1234562 / 10000000, 0, 0⟩).2
     ⟨by norm_num [fmtCoord], rfl, rfl⟩⟩

/-- C6 counterexample: 0.1234561 and 0.1234569 agree in their first six
decimal digits (both truncate to 123456 micro-units), i.e. they differ only
past the 6th decimal digit, yet percent-f rounds them to 0.123456 and
0.123457 respectively, so the two points do NOT share a key. -/
theorem key_differs_past_sixth_decimal :
    (⌊(1234561 / 10000000 : ℚ) * 1000000⌋ = ⌊(1234569 / 10000000 : ℚ) * 1000000⌋) ∧
    Vector3.hash ⟨1234561 / 10000000, 0, 0⟩ ≠
      Vector3.hash ⟨1234569 / 10000000, 0, 0⟩ := by
  constructor
  · norm_num
  · have h1 : fmtCoord (1234561 / 10000000) = (false, 123456) := by
      norm_num [fmtCoord]
    have h2 : fmtCoord (1234569 / 10000000) = (false, 123457) := by
      norm_num [fmtCoord]
    simp [Vector3.hash, h1, h2]

/-- Lookup in a pool, modelling Python dict access by key (dicts preserve
insertion order; first matching entry wins, and keys are unique because
insertion never overwrites). -/
def plook : List (HKey × Vector3) → HKey → Option Vector3
  | [], _ => none
  | (k, v) :: rest, k2 => if k = k2 then some v else plook rest k2

/-- Model of `if key not in pool: pool[key] = v` — the first-seen instance
for a key wins and is never replaced. -/
def poolInsert (pool : List (HKey × Vector3)) (k : HKey) (v : Vector3) :
    List (HKey × Vector3) :=
  match plook pool k with
  | some _ => pool
  | none => pool ++ [(k, v)]

/-- Model3D: the triangle list, the vertex and normal pools, the extent
fields (None before the first triangle) and the coordinate-sum
accumulators mx, my, mz. -/
structure Model3D where
  triangles : List Triangle
  vertices : List (HKey × Vector3)
  normals : List (HKey × Vector3)
  xmin : Option ℚ
  xmax : Option ℚ
  ymin : Option ℚ
  ymax : Option ℚ
  zmin : Option ℚ
  zmax : Option ℚ
  mx : ℚ
  my : ℚ
  mz : ℚ
deriving DecidableEq

/-- A fresh model, as Model3D.__init__ leaves it. -/
def emptyModel : Model3D :=
  { triangles := [], vertices := [], normals := []
    xmin := none, xmax := none, ymin := none, ymax := none
    zmin := none, zmax := none, mx := 0, my := 0, mz := 0 }

/-- One min/max cell update of update_extents: `if less: min = c
elif greater: max = c` (a tie updates neither).  The None case cannot occur
after seeding and leaves the cell unchanged. -/
def extUpdO : Option ℚ × Option ℚ → ℚ → Option ℚ × Option ℚ
  | (some mn, some mx), c =>
    if c < mn then (some c, some mx)
    else if c > mx then (some mn, some c)
    else (some mn, some mx)
  | e, _ => e

/-- Model3D.update_extents: seed min = max = first vertex coordinate and
zero the accumulators when xmin is None, add all three vertices into the
accumulators, then widen min/max per axis per vertex. -/
def update_extents (m : Model3D) (t : Triangle) : Model3D :=
  let m0 :=
    if m.xmin = none then
      { m with xmin := some t.p1.x, xmax := some t.p1.x,
               ymin := some t.p1.y, ymax := some t.p1.y,
               zmin := some t.p1.z, zmax := some t.p1.z,
               mx := 0, my := 0, mz := 0 }
    else m
  let m1 :=
    { m0 with mx := m0.mx + (t.p1.x + t.p2.x + t.p3.x),
              my := m0.my + (t.p1.y + t.p2.y + t.p3.y),
              mz := m0.mz + (t.p1.z + t.p2.z + t.p3.z) }
  List.foldl (fun mm v =>
    let px := extUpdO (mm.xmin, mm.xmax) v.x
    let py := extUpdO (mm.ymin, mm.ymax) v.y
    let pz := extUpdO (mm.zmin, mm.zmax) v.z
    { mm with xmin := px.1, xmax := px.2, ymin := py.1, ymax := py.2,
              zmin := pz.1, zmax := pz.2 })
    m1 [t.p1, t.p2, t.p3]

/-- The vertex pool after add_triangle has pooled the three vertices of one
call, in order (first-seen wins). -/
def pooledVerts (m : Model3D) (v1 v2 v3 : Vector3) : List (HKey × Vector3) :=
  poolInsert (poolInsert (poolInsert m.vertices v1.hash v1) v2.hash v2)
    v3.hash v3

/-- The canonical pooled instance self.vertices[v.hash] used in place of a
caller's vertex (the default is never reached: the key was just pooled). -/
def canon (pool : List (HKey × Vector3)) (v : Vector3) : Vector3 :=
  (plook pool v.hash).getD v

/-- Dispatch on the normal-pool lookup: when the key is absent the resolved
normal is pooled and the triangle keeps it; when present the triangle's
normal is replaced by the pooled instance.  Either way the triangle is
appended and the extents updated. -/
def addTriangleOkD (mv : Model3D) (tri : Triangle) (nrm : Vector3) :
    Option Vector3 → Model3D
  | none =>
    update_extents
      { mv with normals := mv.normals ++ [(nrm.hash, nrm)],
                triangles := mv.triangles ++ [tri] } tri
  | some pooled =>
    update_extents
      { mv with triangles := mv.triangles ++ [{ tri with norm := pooled }] }
      { tri with norm := pooled }

/-- Success half of Model3D.add_triangle, applied to the model whose vertex
pool is already updated: resolve the normal through the normal pool (if the
caller's norm is not a Normal, use the triangle's computed one), then
dispatch on the lookup of its key. -/
def addTriangleOk (mv : Model3D) (tri : Triangle) (norm : Option Vector3) :
    Model3D :=
  addTriangleOkD mv tri (norm.getD tri.norm)
    (plook mv.normals (norm.getD tri.norm).hash)

/-- Dispatch on the outcome of the Triangle constructor: an exception
leaves the partially mutated model (vertex pool already updated) with the
error message; success runs the normal pooling, append and extents step. -/
def addResult (m : Model3D) (norm : Option Vector3) :
    Except String Triangle → Model3D × Option String
  | Except.error e => (m, some e)
  | Except.ok tri => (addTriangleOk m tri norm, none)

/-- Model3D.add_triangle.  The three vertices are pooled FIRST; the
Triangle constructor then runs on the canonical (pooled) instances and may
raise, in which case the vertex pool keeps the insertions already made.
On success the normal is pooled, the triangle is appended and the extents
updated.  The returned pair is the state after the call together with the
raised error message, if any. -/
def Model3D.add_triangle (m : Model3D) (v1 v2 v3 : Vector3)
    (norm : Option Vector3) : Model3D × Option String :=
  addResult { m with vertices := pooledVerts m v1 v2 v3 } norm
    (mkTriangle (canon (pooledVerts m v1 v2 v3) v1)
      (canon (pooledVerts m v1 v2 v3) v2)
      (canon (pooledVerts m v1 v2 v3) v3) norm)

/-- A sequence of add_triangle calls starting from a fresh model; a failed
call leaves its partial state behind, exactly as in the source. -/
def runAdds (reqs : List (Vector3 × Vector3 × Vector3 × Option Vector3)) :
    Model3D :=
  reqs.foldl (fun m r => (m.add_triangle r.1 r.2.1 r.2.2.1 r.2.2.2).1)
    emptyModel

theorem plook_cons (a : HKey) (b : Vector3) (rest : List (HKey × Vector3))
    (k : HKey) :
    plook ((a, b) :: rest) k = if a = k then some b else plook rest k := rfl

theorem plook_append_some (l2 : List (HKey × Vector3)) (k : HKey)
    (v : Vector3) :
    ∀ pool : List (HKey × Vector3),
      plook pool k = some v → plook (pool ++ l2) k = some v := by
  intro pool
  induction pool with
  | nil => intro h; simp [plook] at h
  | cons p rest ih =>
    obtain ⟨a, b⟩ := p
    intro h
    rw [plook_cons] at h
    rw [List.cons_append, plook_cons]
    by_cases hak : a = k
    · rw [if_pos hak] at h ⊢; exact h
    · rw [if_neg hak] at h ⊢; exact ih h

theorem plook_append_none (l2 : List (HKey × Vector3)) (k : HKey) :
    ∀ pool : List (HKey × Vector3),
      plook pool k = none → plook (pool ++ l2) k = plook l2 k := by
  intro pool
  induction pool with
  | nil => intro _; rfl
  | cons p rest ih =>
    obtain ⟨a, b⟩ := p
    intro h
    rw [plook_cons] at h
    rw [List.cons_append, plook_cons]
    by_cases hak : a = k
    · rw [if_pos hak] at h; exact absurd h (by simp)
    · rw [if_neg hak] at h ⊢; exact ih h

theorem plook_poolInsert_self (pool : List (HKey × Vector3)) (k : HKey)
    (v : Vector3) :
    plook (poolInsert pool k v) k = some ((plook pool k).getD v) := by
  unfold poolInsert
  cases h : plook pool k with
  | some w => simp [h]
  | none =>
    rw [plook_append_none _ _ _ h, plook_cons]
    simp

theorem plook_poolInsert_pres (pool : List (HKey × Vector3)) (k k2 : HKey)
    (v w : Vector3) (h : plook pool k2 = some w) :
    plook (poolInsert pool k v) k2 = some w := by
  unfold poolInsert
  cases plook pool k with
  | some _ => exact h
  | none => exact plook_append_some _ _ _ _ h

theorem length_poolInsert_le (pool : List (HKey × Vector3)) (k : HKey)
    (v : Vector3) :
    (poolInsert pool k v).length ≤ pool.length + 1 := by
  unfold poolInsert
  cases plook pool k <;> simp

theorem plook_mem (k : HKey) (v : Vector3) :
    ∀ pool : List (HKey × Vector3),
      plook pool k = some v → (k, v) ∈ pool := by
  intro pool
  induction pool with
  | nil => intro h; simp [plook] at h
  | cons p rest ih =>
    obtain ⟨a, b⟩ := p
    intro h
    rw [plook_cons] at h
    by_cases hak : a = k
    · rw [if_pos hak] at h
      cases h
      subst hak
      exact List.mem_cons_self _ _
    · rw [if_neg hak] at h
      exact List.mem_cons_of_mem _ (ih h)

/-- A pool is well keyed when every entry is stored under the hash of its
value — true of both pools by construction, since insertion always uses
the value's own hash as the key. -/
def wellKeyed (pool : List (HKey × Vector3)) : Prop :=
  ∀ p ∈ pool, Vector3.hash p.2 = p.1

theorem wellKeyed_poolInsert (pool : List (HKey × Vector3)) (v : Vector3)
    (h : wellKeyed pool) : wellKeyed (poolInsert pool v.hash v) := by
  unfold poolInsert
  cases plook pool v.hash with
  | some _ => exact h
  | none =>
    intro p hp
    rcases List.mem_append.1 hp with h1 | h2
    · exact h p h1
    · simp only [List.mem_singleton] at h2
      subst h2
      rfl

theorem wellKeyed_append_hash (pool : List (HKey × Vector3)) (v : Vector3)
    (h : wellKeyed pool) : wellKeyed (pool ++ [(v.hash, v)]) := by
  intro p hp
  rcases List.mem_append.1 hp with h1 | h2
  · exact h p h1
  · simp only [List.mem_singleton] at h2
    subst h2
    rfl

theorem hash_of_plook (pool : List (HKey × Vector3)) (k : HKey) (v : Vector3)
    (hw : wellKeyed pool) (h : plook pool k = some v) : v.hash = k :=
  hw (k, v) (plook_mem k v pool h)

theorem add_triangle_error (m : Model3D) (v1 v2 v3 : Vector3)
    (norm : Option Vector3) (e : String)
    (hmk : mkTriangle (canon (pooledVerts m v1 v2 v3) v1)
        (canon (pooledVerts m v1 v2 v3) v2)
        (canon (pooledVerts m v1 v2 v3) v3) norm = Except.error e) :
    m.add_triangle v1 v2 v3 norm =
      ({ m with vertices := pooledVerts m v1 v2 v3 }, some e) := by
  rw [Model3D.add_triangle, hmk]
  rfl

theorem add_triangle_okCase (m : Model3D) (v1 v2 v3 : Vector3)
    (norm : Option Vector3) (tri : Triangle)
    (hmk : mkTriangle (canon (pooledVerts m v1 v2 v3) v1)
        (canon (pooledVerts m v1 v2 v3) v2)
        (canon (pooledVerts m v1 v2 v3) v3) norm = Except.ok tri) :
    m.add_triangle v1 v2 v3 norm =
      (addTriangleOk { m with vertices := pooledVerts m v1 v2 v3 } tri norm,
       none) := by
  rw [Model3D.add_triangle, hmk]
  rfl

/-- C7 (amended): when add_triangle raises a degeneracy error, the triangle
list, the normal pool, the six extent fields and the three centroid
accumulators are exactly as before the call; the vertex pool, however, has
already been mutated by then (see the counterexample). -/
theorem add_triangle_failure_frame (m : Model3D) (v1 v2 v3 : Vector3)
    (norm : Option Vector3) (e : String)
    (h : (m.add_triangle v1 v2 v3 norm).2 = some e) :
    (m.add_triangle v1 v2 v3 norm).1.triangles = m.triangles ∧
    (m.add_triangle v1 v2 v3 norm).1.normals = m.normals ∧
    (m.add_triangle v1 v2 v3 norm).1.xmin = m.xmin ∧
    (m.add_triangle v1 v2 v3 norm).1.xmax = m.xmax ∧
    (m.add_triangle v1 v2 v3 norm).1.ymin = m.ymin ∧
    (m.add_triangle v1 v2 v3 norm).1.ymax = m.ymax ∧
    (m.add_triangle v1 v2 v3 norm).1.zmin = m.zmin ∧
    (m.add_triangle v1 v2 v3 norm).1.zmax = m.zmax ∧
    (m.add_triangle v1 v2 v3 norm).1.mx = m.mx ∧
    (m.add_triangle v1 v2 v3 norm).1.my = m.my ∧
    (m.add_triangle v1 v2 v3 norm).1.mz = m.mz := by
  cases hmk : mkTriangle (canon (pooledVerts m v1 v2 v3) v1)
      (canon (pooledVerts m v1 v2 v3) v2)
      (canon (pooledVerts m v1 v2 v3) v3) norm with
  | error e2 =>
    rw [add_triangle_error m v1 v2 v3 norm e2 hmk]
    exact ⟨rfl, rfl, rfl, rfl, rfl, rfl, rfl, rfl, rfl, rfl, rfl⟩
  | ok tri =>
    rw [add_triangle_okCase m v1 v2 v3 norm tri hmk] at h
    simp at h

/-- Concrete evaluation of a failing insertion: the degenerate call pools
the vertices (0,0,0) and (1,0,0) and then rejects the triangle. -/
theorem add_triangle_coincident_eval :
    emptyModel.add_triangle ⟨0, 0, 0⟩ ⟨0, 0, 0⟩ ⟨1, 0, 0⟩ (some ⟨0, 0, 1⟩) =
      ({ emptyModel with
          vertices :=
            [(((false, 0), (false, 0), (false, 0)), ⟨0, 0, 0⟩),
             (((false, 1000000), (false, 0), (false, 0)), ⟨1, 0, 0⟩)] },
       some "Degenerate Facet; Coincident Points") := by
  have ha : (⟨0, 0, 0⟩ : Vector3).hash = ((false, 0), (false, 0), (false, 0)) := by
    norm_num [Vector3.hash, fmtCoord]
  have hb : (⟨1, 0, 0⟩ : Vector3).hash =
      ((false, 1000000), (false, 0), (false, 0)) := by
    norm_num [Vector3.hash, fmtCoord]
  have hP : pooledVerts emptyModel ⟨0, 0, 0⟩ ⟨0, 0, 0⟩ ⟨1, 0, 0⟩ =
      [(((false, 0), (false, 0), (false, 0)), ⟨0, 0, 0⟩),
       (((false, 1000000), (false, 0), (false, 0)), ⟨1, 0, 0⟩)] := by
    simp [pooledVerts, emptyModel, poolInsert, plook, ha, hb]
  have hca : canon
      [(((false, 0), (false, 0), (false, 0)), ⟨0, 0, 0⟩),
       (((false, 1000000), (false, 0), (false, 0)), ⟨1, 0, 0⟩)] ⟨0, 0, 0⟩ =
      ⟨0, 0, 0⟩ := by
    simp [canon, plook, ha]
  have hcb : canon
      [(((false, 0), (false, 0), (false, 0)), ⟨0, 0, 0⟩),
       (((false, 1000000), (false, 0), (false, 0)), ⟨1, 0, 0⟩)] ⟨1, 0, 0⟩ =
      ⟨1, 0, 0⟩ := by
    simp [canon, plook, hb]
  have hmk : mkTriangle ⟨0, 0, 0⟩ ⟨0, 0, 0⟩ ⟨1, 0, 0⟩ (some ⟨0, 0, 1⟩) =
      Except.error "Degenerate Facet; Coincident Points" := by
    norm_num [mkTriangle, veq, DIFFERENCE_LIMIT]
  have := add_triangle_error emptyModel ⟨0, 0, 0⟩ ⟨0, 0, 0⟩ ⟨1, 0, 0⟩
    (some ⟨0, 0, 1⟩) "Degenerate Facet; Coincident Points"
    (by rw [hP, hca, hcb]; exact hmk)
  rw [this, hP]

/-- Witness for the amended C7 theorem at a concrete failing insertion. -/
theorem add_triangle_failure_frame_witness :
    (emptyModel.add_triangle ⟨0, 0, 0⟩ ⟨0, 0, 0⟩ ⟨1, 0, 0⟩
        (some ⟨0, 0, 1⟩)).1.triangles = emptyModel.triangles ∧
    (emptyModel.add_triangle ⟨0, 0, 0⟩ ⟨0, 0, 0⟩ ⟨1, 0, 0⟩
        (some ⟨0, 0, 1⟩)).1.normals = emptyModel.normals ∧
    (emptyModel.add_triangle ⟨0, 0, 0⟩ ⟨0, 0, 0⟩ ⟨1, 0, 0⟩
        (some ⟨0, 0, 1⟩)).1.xmin = emptyModel.xmin ∧
    (emptyModel.add_triangle ⟨0, 0, 0⟩ ⟨0, 0, 0⟩ ⟨1, 0, 0⟩
        (some ⟨0, 0, 1⟩)).1.xmax = emptyModel.xmax ∧
    (emptyModel.add_triangle ⟨0, 0, 0⟩ ⟨0, 0, 0⟩ ⟨1, 0, 0⟩
        (some ⟨0, 0, 1⟩)).1.ymin = emptyModel.ymin ∧
    (emptyModel.add_triangle ⟨0, 0, 0⟩ ⟨0, 0, 0⟩ ⟨1, 0, 0⟩
        (some ⟨0, 0, 1⟩)).1.ymax = emptyModel.ymax ∧
    (emptyModel.add_triangle ⟨0, 0, 0⟩ ⟨0, 0, 0⟩ ⟨1, 0, 0⟩
        (some ⟨0, 0, 1⟩)).1.zmin = emptyModel.zmin ∧
    (emptyModel.add_triangle ⟨0, 0, 0⟩ ⟨0, 0, 0⟩ ⟨1, 0, 0⟩
        (some ⟨0, 0, 1⟩)).1.zmax = emptyModel.zmax ∧
    (emptyModel.add_triangle ⟨0, 0, 0⟩ ⟨0, 0, 0⟩ ⟨1, 0, 0⟩
        (some ⟨0, 0, 1⟩)).1.mx = emptyModel.mx ∧
    (emptyModel.add_triangle ⟨0, 0, 0⟩ ⟨0, 0, 0⟩ ⟨1, 0, 0⟩
        (some ⟨0, 0, 1⟩)).1.my = emptyModel.my ∧
    (emptyModel.add_triangle ⟨0, 0, 0⟩ ⟨0, 0, 0⟩ ⟨1, 0, 0⟩
        (some ⟨0, 0, 1⟩)).1.mz = emptyModel.mz :=
  add_triangle_failure_frame emptyModel ⟨0, 0, 0⟩ ⟨0, 0, 0⟩ ⟨1, 0, 0⟩
    (some ⟨0, 0, 1⟩) "Degenerate Facet; Coincident Points"
    (by rw [add_triangle_coincident_eval])

/-- C7 counterexample: a failing insertion is NOT free of side effects on
the whole mesh: the degenerate call below is rejected, yet the vertex pool
has grown from empty to two pooled vertices, because add_triangle pools
the vertices before the Triangle constructor runs. -/
theorem add_triangle_failure_grows_vertex_pool :
    (emptyModel.add_triangle ⟨0, 0, 0⟩ ⟨0, 0, 0⟩ ⟨1, 0, 0⟩
        (some ⟨0, 0, 1⟩)).2 = some "Degenerate Facet; Coincident Points" ∧
    (emptyModel.add_triangle ⟨0, 0, 0⟩ ⟨0, 0, 0⟩ ⟨1, 0, 0⟩
        (some ⟨0, 0, 1⟩)).1.vertices ≠ emptyModel.vertices := by
  rw [add_triangle_coincident_eval]
  constructor
  · rfl
  · simp [emptyModel]

/-- Loop body of Model3D.slice_at_z: if the triangle's result has length
exactly 2, append (points[0], points[1]) to the output, else skip. -/
def sliceStep (targetz : ℚ) (output : List ((ℚ × ℚ) × (ℚ × ℚ)))
    (tri : Triangle) : List ((ℚ × ℚ) × (ℚ × ℚ)) :=
  match Triangle.find_interpolated_points_at_z tri targetz with
  | [a, b] => output ++ [(a, b)]
  | _ => output

/-- Model3D.slice_at_z: loop over the triangles in order, keep the
per-triangle results of length exactly 2, emit (points[0], points[1]). -/
def Model3D.slice_at_z (m : Model3D) (targetz : ℚ) :
    List ((ℚ × ℚ) × (ℚ × ℚ)) :=
  List.foldl (sliceStep targetz) [] m.triangles

/-- State-passing rendering of slice_at_z: the method reads self.triangles
and assigns no attribute, so the model component is threaded unchanged
through the loop. -/
def Model3D.slice_at_z_run (m : Model3D) (targetz : ℚ) :
    Model3D × List ((ℚ × ℚ) × (ℚ × ℚ)) :=
  List.foldl (fun st tri => (st.1, sliceStep targetz st.2 tri))
    (m, []) m.triangles

/-- The per-triangle acceptance from claim C5: a triangle contributes the
segment (points[0], points[1]) exactly when its result has length 2. -/
def keepTwo (targetz : ℚ) (tri : Triangle) : Option ((ℚ × ℚ) × (ℚ × ℚ)) :=
  match Triangle.find_interpolated_points_at_z tri targetz with
  | [a, b] => some (a, b)
  | _ => none

/-- The slice policy as claim C5 words it: exactly the triangles whose
intersection result has length 2 contribute, one segment each, in
insertion order. -/
def sliceAtZSpec (m : Model3D) (targetz : ℚ) :
    List ((ℚ × ℚ) × (ℚ × ℚ)) :=
  m.triangles.filterMap (keepTwo targetz)

theorem sliceStep_eq_keepTwo (targetz : ℚ)
    (output : List ((ℚ × ℚ) × (ℚ × ℚ))) (tri : Triangle) :
    sliceStep targetz output tri = output ++ (keepTwo targetz tri).toList := by
  rw [sliceStep, keepTwo]
  cases hF : Triangle.find_interpolated_points_at_z tri targetz with
  | nil => simp
  | cons a rest =>
    cases rest with
    | nil => simp
    | cons b rest2 =>
      cases rest2 with
      | nil => simp
      | cons c rest3 => simp

theorem foldl_append_toList {α β : Type} (g : α → Option β) :
    ∀ (l : List α) (acc : List β),
      List.foldl (fun out x => out ++ (g x).toList) acc l
        = acc ++ l.filterMap g := by
  intro l
  induction l with
  | nil => intro acc; simp
  | cons hd tl ih =>
    intro acc
    rw [List.foldl_cons, List.filterMap_cons, ih]
    cases g hd <;> simp

/-- C5: slice_at_z returns exactly the (points[0], points[1]) pairs of the
triangles whose intersection result has length exactly 2, one segment per
such triangle, in insertion order; all other result lengths contribute
nothing. -/
theorem slice_at_z_keeps_two_point_results (m : Model3D) (targetz : ℚ) :
    m.slice_at_z targetz = sliceAtZSpec m targetz := by
  have hstep : sliceStep targetz =
      fun out tri => out ++ (keepTwo targetz tri).toList := by
    funext out tri
    exact sliceStep_eq_keepTwo targetz out tri
  rw [Model3D.slice_at_z, sliceAtZSpec, hstep, foldl_append_toList]
  rfl

/-- C10: slice_at_z is a pure query: the state-passing run leaves every
field of the model — triangle list, vertex pool, normal pool, the six
extents, the accumulators — unchanged, every stored triangle (hence its
vertices and normal) unchanged, and computes exactly slice_at_z. -/
theorem slice_at_z_readonly (m : Model3D) (targetz : ℚ) :
    (m.slice_at_z_run targetz).1.triangles = m.triangles ∧
    (m.slice_at_z_run targetz).1.vertices = m.vertices ∧
    (m.slice_at_z_run targetz).1.normals = m.normals ∧
    (m.slice_at_z_run targetz).1.xmin = m.xmin ∧
    (m.slice_at_z_run targetz).1.xmax = m.xmax ∧
    (m.slice_at_z_run targetz).1.ymin = m.ymin ∧
    (m.slice_at_z_run targetz).1.ymax = m.ymax ∧
    (m.slice_at_z_run targetz).1.zmin = m.zmin ∧
    (m.slice_at_z_run targetz).1.zmax = m.zmax ∧
    (m.slice_at_z_run targetz).1.mx = m.mx ∧
    (m.slice_at_z_run targetz).1.my = m.my ∧
    (m.slice_at_z_run targetz).1.mz = m.mz ∧
    (∀ t ∈ (m.slice_at_z_run targetz).1.triangles, t ∈ m.triangles) ∧
    (m.slice_at_z_run targetz).2 = m.slice_at_z targetz := by
  have hfst : ∀ (l : List Triangle) (st : Model3D × List ((ℚ × ℚ) × (ℚ × ℚ))),
      (List.foldl (fun st tri => (st.1, sliceStep targetz st.2 tri)) st l) =
      (st.1, List.foldl (sliceStep targetz) st.2 l) := by
    intro l
    induction l with
    | nil => intro st; rfl
    | cons hd tl ih => intro st; rw [List.foldl_cons, List.foldl_cons, ih]
  have hrun : m.slice_at_z_run targetz = (m, m.slice_at_z targetz) := by
    rw [Model3D.slice_at_z_run, hfst m.triangles (m, []), Model3D.slice_at_z]
  rw [hrun]
  exact ⟨rfl, rfl, rfl, rfl, rfl, rfl, rfl, rfl, rfl, rfl, rfl, rfl,
    fun t ht => ht, rfl⟩

/-- Tuple addition, as the source's generic math helper. -/
def add_v3v3 (v0 v1 : ℚ × ℚ × ℚ) : ℚ × ℚ × ℚ :=
  (v0.1 + v1.1, v0.2.1 + v1.2.1, v0.2.2 + v1.2.2)

/-- Tuple subtraction. -/
def sub_v3v3 (v0 v1 : ℚ × ℚ × ℚ) : ℚ × ℚ × ℚ :=
  (v0.1 - v1.1, v0.2.1 - v1.2.1, v0.2.2 - v1.2.2)

/-- Tuple dot product. -/
def dot_v3v3 (v0 v1 : ℚ × ℚ × ℚ) : ℚ :=
  v0.1 * v1.1 + v0.2.1 * v1.2.1 + v0.2.2 * v1.2.2

/-- Tuple scaling. -/
def mul_v3_fl (v0 : ℚ × ℚ × ℚ) (f : ℚ) : ℚ × ℚ × ℚ :=
  (v0.1 * f, v0.2.1 * f, v0.2.2 * f)

/-- isect_line_plane_v3 with the default epsilon 1e-6: an edge parallel to
the plane (|dot| ≤ epsilon) contributes nothing; otherwise the parametric
intersection is kept only for 0 ≤ fac ≤ 1. -/
def isect_line_plane_v3 (p0 p1 p_co p_no : ℚ × ℚ × ℚ) :
    Option (ℚ × ℚ × ℚ) :=
  let u := sub_v3v3 p1 p0
  let dt := dot_v3v3 p_no u
  if |dt| > 1 / 1000000 then
    let fac := -(dot_v3v3 p_no (sub_v3v3 p0 p_co)) / dt
    if fac ≥ 0 ∧ fac ≤ 1 then some (add_v3v3 p0 (mul_v3_fl u fac)) else none
  else none

/-- A plane as the slicing code consumes it: a point p1 on the plane and
its normal_vector (the two sympy attributes the source reads). -/
structure PlaneQ where
  p1 : ℚ × ℚ × ℚ
  normal_vector : ℚ × ℚ × ℚ

/-- Triangle.find_interpolated_points_at_plane: intersect the three edges
(v1,v2), (v1,v3), (v2,v3) with the plane and append the non-None results
in that order. -/
def Triangle.find_interpolated_points_at_plane (t : Triangle)
    (plane : PlaneQ) : List (ℚ × ℚ × ℚ) :=
  (isect_line_plane_v3 (t.p1.x, t.p1.y, t.p1.z) (t.p2.x, t.p2.y, t.p2.z)
     plane.p1 plane.normal_vector).toList ++
  (isect_line_plane_v3 (t.p1.x, t.p1.y, t.p1.z) (t.p3.x, t.p3.y, t.p3.z)
     plane.p1 plane.normal_vector).toList ++
  (isect_line_plane_v3 (t.p2.x, t.p2.y, t.p2.z) (t.p3.x, t.p3.y, t.p3.z)
     plane.p1 plane.normal_vector).toList

/-- Size of the random subsample taken by slice_at_plane:
int(length - length*0.2), computed in exact arithmetic. -/
def sampleSize (n : ℕ) : ℕ :=
  (⌊(n : ℚ) - (n : ℚ) * (2 / 10)⌋).toNat

/-- Placeholder for the out-of-range default of list indexing; it is never
reached, since every drawn index is reduced modulo the list length. -/
def dummyTri : Triangle :=
  ⟨⟨0, 0, 0⟩, ⟨0, 0, 0⟩, ⟨0, 0, 0⟩, ⟨0, 0, 0⟩⟩

/-- Model of np.random.choice(tris, int(length - length*0.2)) with its
default replace=True: the PRNG is abstracted as the draw oracle; position i
of the sample holds the triangle at index draw(i) mod length, so repeated
indices — sampling WITH replacement — are possible. -/
def sampleTris (draw : ℕ → ℕ) (tris : List Triangle) : List Triangle :=
  (List.range (sampleSize tris.length)).map
    (fun i => tris.getD (draw i % tris.length) dummyTri)

/-- The length-2 test on a point list: a list of exactly two points yields
the converted segment, anything else yields nothing. -/
def twoToSeg (conv : ℚ × ℚ × ℚ → ℚ × ℚ) :
    List (ℚ × ℚ × ℚ) → Option ((ℚ × ℚ) × (ℚ × ℚ))
  | [a, b] => some (conv a, conv b)
  | _ => none

/-- Loop body of slice_at_plane: keep length-2 results, converting each
3D endpoint to plane coordinates through the conv collaborator
(convert_to_2d via sympy distances, abstracted as a parameter). -/
def planeStep (plane : PlaneQ) (conv : ℚ × ℚ × ℚ → ℚ × ℚ)
    (output : List ((ℚ × ℚ) × (ℚ × ℚ))) (tri : Triangle) :
    List ((ℚ × ℚ) × (ℚ × ℚ)) :=
  output ++ (twoToSeg conv (Triangle.find_interpolated_points_at_plane tri plane)).toList

/-- Per-triangle acceptance of slice_at_plane: a length-2 result yields a
converted segment. -/
def keepTwoPlane (plane : PlaneQ) (conv : ℚ × ℚ × ℚ → ℚ × ℚ)
    (tri : Triangle) : Option ((ℚ × ℚ) × (ℚ × ℚ)) :=
  twoToSeg conv (Triangle.find_interpolated_points_at_plane tri plane)

/-- Model3D.slice_at_plane: subsample the triangle list through the draw
oracle, then loop over the sample keeping length-2 intersections. -/
def Model3D.slice_at_plane (m : Model3D) (plane : PlaneQ)
    (conv : ℚ × ℚ × ℚ → ℚ × ℚ) (draw : ℕ → ℕ) :
    List ((ℚ × ℚ) × (ℚ × ℚ)) :=
  List.foldl (planeStep plane conv) [] (sampleTris draw m.triangles)

theorem planeStep_eq_keepTwoPlane (plane : PlaneQ)
    (conv : ℚ × ℚ × ℚ → ℚ × ℚ) (output : List ((ℚ × ℚ) × (ℚ × ℚ)))
    (tri : Triangle) :
    planeStep plane conv output tri =
      output ++ (keepTwoPlane plane conv tri).toList := by
  rw [planeStep, keepTwoPlane]

/-- C8 (amended): slice_at_plane first subsamples the triangle list to a
sample of size int(n - 0.2·n) whose entries are all drawn from the stored
triangles — WITH replacement, so one triangle may be drawn several times —
and then computes segments exactly from the sampled triangles, keeping the
length-2 intersections in sample order. -/
theorem slice_at_plane_subsamples (m : Model3D) (plane : PlaneQ)
    (conv : ℚ × ℚ × ℚ → ℚ × ℚ) (draw : ℕ → ℕ) :
    (sampleTris draw m.triangles).length = sampleSize m.triangles.length ∧
    (∀ t ∈ sampleTris draw m.triangles, t ∈ m.triangles) ∧
    m.slice_at_plane plane conv draw =
      (sampleTris draw m.triangles).filterMap (keepTwoPlane plane conv) := by
  refine ⟨by simp [sampleTris], ?_, ?_⟩
  · intro t ht
    rw [sampleTris] at ht
    obtain ⟨i, hi, rfl⟩ := List.mem_map.1 ht
    rcases Nat.eq_zero_or_pos m.triangles.length with h0 | hpos
    · rw [List.length_eq_zero.1 h0]
      rw [List.length_eq_zero.1 h0] at hi
      have hs : sampleSize (List.length ([] : List Triangle)) = 0 := by
        norm_num [sampleSize]
      rw [hs] at hi
      simp at hi
    · have hlt : draw i % m.triangles.length < m.triangles.length :=
        Nat.mod_lt _ hpos
      rw [List.getD_eq_getElem m.triangles dummyTri hlt]
      exact List.getElem_mem hlt
  · have hstep : planeStep plane conv =
        fun out tri => out ++ (keepTwoPlane plane conv tri).toList := by
      funext out tri
      exact planeStep_eq_keepTwoPlane plane conv out tri
    rw [Model3D.slice_at_plane, hstep, foldl_append_toList]
    rfl

/-- Five pairwise distinct triangles, stacked at z = 0, 1, 2, 3, 4. -/
def demoTris : List Triangle :=
  [⟨⟨0, 0, 0⟩, ⟨1, 0, 0⟩, ⟨0, 1, 0⟩, ⟨0, 0, 1⟩⟩,
   ⟨⟨0, 0, 1⟩, ⟨1, 0, 1⟩, ⟨0, 1, 1⟩, ⟨0, 0, 1⟩⟩,
   ⟨⟨0, 0, 2⟩, ⟨1, 0, 2⟩, ⟨0, 1, 2⟩, ⟨0, 0, 1⟩⟩,
   ⟨⟨0, 0, 3⟩, ⟨1, 0, 3⟩, ⟨0, 1, 3⟩, ⟨0, 0, 1⟩⟩,
   ⟨⟨0, 0, 4⟩, ⟨1, 0, 4⟩, ⟨0, 1, 4⟩, ⟨0, 0, 1⟩⟩]

/-- Evaluation of the subsample of the five demo triangles under the
constant draw: int(5 - 0.2·5) = 4 copies of the first triangle. -/
theorem demo_sample_eval :
    sampleTris (fun _ => 0) demoTris =
      [⟨⟨0, 0, 0⟩, ⟨1, 0, 0⟩, ⟨0, 1, 0⟩, ⟨0, 0, 1⟩⟩,
       ⟨⟨0, 0, 0⟩, ⟨1, 0, 0⟩, ⟨0, 1, 0⟩, ⟨0, 0, 1⟩⟩,
       ⟨⟨0, 0, 0⟩, ⟨1, 0, 0⟩, ⟨0, 1, 0⟩, ⟨0, 0, 1⟩⟩,
       ⟨⟨0, 0, 0⟩, ⟨1, 0, 0⟩, ⟨0, 1, 0⟩, ⟨0, 0, 1⟩⟩] := by
  have hs : sampleSize 5 = 4 := by
    rw [sampleSize]
    norm_num
    rfl
  have hlen : demoTris.length = 5 := rfl
  rw [sampleTris, hlen, hs]
  rfl

/-- C8 counterexample: on five pairwise distinct triangles the subsampling
step keeps int(5 - 0.2·5) = 4 triangles, but with the constant draw the
sample is the first triangle four times — the sampling is WITH replacement
(np.random.choice's default), so the sample is not a subset of distinct
triangles chosen without replacement. -/
theorem slice_at_plane_sample_with_replacement :
    sampleTris (fun _ => 0) demoTris =
      [⟨⟨0, 0, 0⟩, ⟨1, 0, 0⟩, ⟨0, 1, 0⟩, ⟨0, 0, 1⟩⟩,
       ⟨⟨0, 0, 0⟩, ⟨1, 0, 0⟩, ⟨0, 1, 0⟩, ⟨0, 0, 1⟩⟩,
       ⟨⟨0, 0, 0⟩, ⟨1, 0, 0⟩, ⟨0, 1, 0⟩, ⟨0, 0, 1⟩⟩,
       ⟨⟨0, 0, 0⟩, ⟨1, 0, 0⟩, ⟨0, 1, 0⟩, ⟨0, 0, 1⟩⟩] ∧
    demoTris.Nodup ∧
    ¬ (sampleTris (fun _ => 0) demoTris).Nodup := by
  refine ⟨demo_sample_eval, ?_, ?_⟩
  · norm_num [demoTris, List.nodup_cons, Triangle.mk.injEq, Vector3.mk.injEq]
  · rw [demo_sample_eval]
    simp

/-- A model holding the five demo triangles. -/
def demoModel : Model3D :=
  { emptyModel with triangles := demoTris }

/-- Witness for the amended C8 theorem at a concrete model, plane,
conversion and draw. -/
theorem slice_at_plane_subsamples_witness :
    (sampleTris (fun _ => 0) demoModel.triangles).length =
      sampleSize demoModel.triangles.length ∧
    (⟨⟨0, 0, 0⟩, ⟨1, 0, 0⟩, ⟨0, 1, 0⟩, ⟨0, 0, 1⟩⟩ : Triangle) ∈
      demoModel.triangles ∧
    demoModel.slice_at_plane ⟨(0, 0, 1 / 2), (0, 0, 1)⟩
        (fun p => (p.1, p.2.1)) (fun _ => 0) =
      (sampleTris (fun _ => 0) demoModel.triangles).filterMap
        (keepTwoPlane ⟨(0, 0, 1 / 2), (0, 0, 1)⟩ (fun p => (p.1, p.2.1))) := by
  obtain ⟨h1, h2, h3⟩ := slice_at_plane_subsamples demoModel
    ⟨(0, 0, 1 / 2), (0, 0, 1)⟩ (fun p => (p.1, p.2.1)) (fun _ => 0)
  refine ⟨h1, ?_, h3⟩
  refine h2 _ ?_
  show (⟨⟨0, 0, 0⟩, ⟨1, 0, 0⟩, ⟨0, 1, 0⟩, ⟨0, 0, 1⟩⟩ : Triangle) ∈
    sampleTris (fun _ => 0) demoTris
  rw [demo_sample_eval]
  exact List.mem_cons_self _ _

theorem update_extents_triangles (m : Model3D) (t : Triangle) :
    (update_extents m t).triangles = m.triangles := by
  rw [update_extents]
  split <;> rfl

theorem update_extents_vertices (m : Model3D) (t : Triangle) :
    (update_extents m t).vertices = m.vertices := by
  rw [update_extents]
  split <;> rfl

theorem update_extents_normals (m : Model3D) (t : Triangle) :
    (update_extents m t).normals = m.normals := by
  rw [update_extents]
  split <;> rfl

theorem mkTriangle_ok (p1 p2 p3 : Vector3) (norm : Option Vector3)
    (t : Triangle) (h : mkTriangle p1 p2 p3 norm = Except.ok t) :
    t.p1 = p1 ∧ t.p2 = p2 ∧ t.p3 = p3 ∧
    (∀ n, norm = some n → t.norm = n) := by
  rw [mkTriangle.eq_def] at h
  split at h
  · exact absurd h (by simp)
  split at h
  · exact absurd h (by simp)
  cases norm with
  | some n =>
    simp only [Except.ok.injEq] at h
    subst h
    exact ⟨rfl, rfl, rfl, fun n2 hn2 => by cases hn2; rfl⟩
  | none =>
    simp only [] at h
    split at h
    · exact absurd h (by simp)
    · simp only [Except.ok.injEq] at h
      subst h
      exact ⟨rfl, rfl, rfl, fun n2 hn2 => by cases hn2⟩

theorem addTriangleOkD_vertices (mv : Model3D) (tri : Triangle)
    (nrm : Vector3) (o : Option Vector3) :
    (addTriangleOkD mv tri nrm o).vertices = mv.vertices := by
  cases o with
  | none => rw [addTriangleOkD, update_extents_vertices]
  | some pooled => rw [addTriangleOkD, update_extents_vertices]

theorem addTriangleOkD_triangles (mv : Model3D) (tri : Triangle)
    (nrm : Vector3) (o : Option Vector3) :
    ∃ trX : Triangle,
      (addTriangleOkD mv tri nrm o).triangles = mv.triangles ++ [trX] ∧
      trX.p1 = tri.p1 ∧ trX.p2 = tri.p2 ∧ trX.p3 = tri.p3 := by
  cases o with
  | none =>
    exact ⟨tri, by rw [addTriangleOkD, update_extents_triangles], rfl, rfl, rfl⟩
  | some pooled =>
    exact ⟨{ tri with norm := pooled },
      by rw [addTriangleOkD, update_extents_triangles], rfl, rfl, rfl⟩

theorem poolInsert_of_isSome (pool : List (HKey × Vector3)) (k : HKey)
    (v : Vector3) (h : (plook pool k).isSome) :
    poolInsert pool k v = pool := by
  rw [poolInsert]
  cases hp : plook pool k with
  | some w => rfl
  | none => rw [hp] at h; simp at h

theorem plook_canon (pool : List (HKey × Vector3)) (v : Vector3)
    (h : (plook pool v.hash).isSome) :
    plook pool v.hash = some (canon pool v) := by
  rw [canon]
  cases hp : plook pool v.hash with
  | some w => rfl
  | none => rw [hp] at h; simp at h

/-- The canonical-instance invariant of claim C4 for one stored triangle:
each vertex and the normal is exactly the pool's entry for its own key. -/
def pooledTri (m : Model3D) (t : Triangle) : Prop :=
  plook m.vertices t.p1.hash = some t.p1 ∧
  plook m.vertices t.p2.hash = some t.p2 ∧
  plook m.vertices t.p3.hash = some t.p3 ∧
  plook m.normals t.norm.hash = some t.norm

/-- The full pooling invariant: well-keyed pools and every stored triangle
canonical. -/
def poolInv (m : Model3D) : Prop :=
  wellKeyed m.vertices ∧ wellKeyed m.normals ∧
  ∀ t ∈ m.triangles, pooledTri m t

theorem add_triangle_poolInv (m : Model3D) (v1 v2 v3 : Vector3)
    (norm : Option Vector3) (h : poolInv m) :
    poolInv (m.add_triangle v1 v2 v3 norm).1 := by
  obtain ⟨hwv, hwn, htri⟩ := h
  have hwP : wellKeyed (pooledVerts m v1 v2 v3) := by
    rw [pooledVerts]
    exact wellKeyed_poolInsert _ v3
      (wellKeyed_poolInsert _ v2 (wellKeyed_poolInsert _ v1 hwv))
  have hpres : ∀ (k : HKey) (w : Vector3), plook m.vertices k = some w →
      plook (pooledVerts m v1 v2 v3) k = some w := by
    intro k w hw
    rw [pooledVerts]
    exact plook_poolInsert_pres _ _ _ _ _
      (plook_poolInsert_pres _ _ _ _ _ (plook_poolInsert_pres _ _ _ _ _ hw))
  have hsome1 : (plook (pooledVerts m v1 v2 v3) v1.hash).isSome := by
    rw [pooledVerts]
    rw [plook_poolInsert_pres _ _ _ _ _
      (plook_poolInsert_pres _ _ _ _ _ (plook_poolInsert_self m.vertices v1.hash v1))]
    rfl
  have hsome2 : (plook (pooledVerts m v1 v2 v3) v2.hash).isSome := by
    rw [pooledVerts]
    rw [plook_poolInsert_pres _ _ _ _ _
      (plook_poolInsert_self (poolInsert m.vertices v1.hash v1) v2.hash v2)]
    rfl
  have hsome3 : (plook (pooledVerts m v1 v2 v3) v3.hash).isSome := by
    rw [pooledVerts]
    rw [plook_poolInsert_self
      (poolInsert (poolInsert m.vertices v1.hash v1) v2.hash v2) v3.hash v3]
    rfl
  have hc1 := plook_canon _ v1 hsome1
  have hc2 := plook_canon _ v2 hsome2
  have hc3 := plook_canon _ v3 hsome3
  have hk1 : (canon (pooledVerts m v1 v2 v3) v1).hash = v1.hash :=
    hash_of_plook _ _ _ hwP hc1
  have hk2 : (canon (pooledVerts m v1 v2 v3) v2).hash = v2.hash :=
    hash_of_plook _ _ _ hwP hc2
  have hk3 : (canon (pooledVerts m v1 v2 v3) v3).hash = v3.hash :=
    hash_of_plook _ _ _ hwP hc3
  cases hmk : mkTriangle (canon (pooledVerts m v1 v2 v3) v1)
      (canon (pooledVerts m v1 v2 v3) v2)
      (canon (pooledVerts m v1 v2 v3) v3) norm with
  | error e =>
    have hadd : (m.add_triangle v1 v2 v3 norm).1 =
        { m with vertices := pooledVerts m v1 v2 v3 } := by
      rw [add_triangle_error m v1 v2 v3 norm e hmk]
    rw [hadd]
    refine ⟨hwP, hwn, ?_⟩
    intro t ht
    obtain ⟨q1, q2, q3, qn⟩ := htri t ht
    exact ⟨hpres _ _ q1, hpres _ _ q2, hpres _ _ q3, qn⟩
  | ok tri =>
    have hadd : (m.add_triangle v1 v2 v3 norm).1 =
        addTriangleOk { m with vertices := pooledVerts m v1 v2 v3 } tri norm := by
      rw [add_triangle_okCase m v1 v2 v3 norm tri hmk]
    rw [hadd]
    obtain ⟨ht1, ht2, ht3, htn⟩ := mkTriangle_ok _ _ _ _ _ hmk
    have hnd : norm.getD tri.norm = tri.norm := by
      cases norm with
      | none => rfl
      | some n => rw [htn n rfl]; rfl
    rw [addTriangleOk, hnd]
    have hmvn : ({ m with vertices := pooledVerts m v1 v2 v3 } : Model3D).normals
        = m.normals := rfl
    rw [hmvn]
    cases hn : plook m.normals tri.norm.hash with
    | none =>
      simp only [addTriangleOkD]
      refine ⟨?_, ?_, ?_⟩
      · rw [update_extents_vertices]
        exact hwP
      · rw [update_extents_normals]
        exact wellKeyed_append_hash _ tri.norm hwn
      · intro t ht
        rw [update_extents_triangles] at ht
        rcases List.mem_append.1 ht with hold | hnew
        · obtain ⟨q1, q2, q3, qn⟩ := htri t hold
          refine ⟨?_, ?_, ?_, ?_⟩
          · rw [update_extents_vertices]; exact hpres _ _ q1
          · rw [update_extents_vertices]; exact hpres _ _ q2
          · rw [update_extents_vertices]; exact hpres _ _ q3
          · rw [update_extents_normals]
            exact plook_append_some _ _ _ _ qn
        · simp only [List.mem_singleton] at hnew
          subst hnew
          refine ⟨?_, ?_, ?_, ?_⟩
          · rw [update_extents_vertices, ht1, hk1]; exact hc1
          · rw [update_extents_vertices, ht2, hk2]; exact hc2
          · rw [update_extents_vertices, ht3, hk3]; exact hc3
          · rw [update_extents_normals]
            rw [plook_append_none _ _ _ hn, plook_cons, if_pos rfl]
    | some pooled =>
      simp only [addTriangleOkD]
      have hph : pooled.hash = tri.norm.hash := hash_of_plook _ _ _ hwn hn
      refine ⟨?_, ?_, ?_⟩
      · rw [update_extents_vertices]
        exact hwP
      · rw [update_extents_normals]
        exact hwn
      · intro t ht
        rw [update_extents_triangles] at ht
        rcases List.mem_append.1 ht with hold | hnew
        · obtain ⟨q1, q2, q3, qn⟩ := htri t hold
          refine ⟨?_, ?_, ?_, ?_⟩
          · rw [update_extents_vertices]; exact hpres _ _ q1
          · rw [update_extents_vertices]; exact hpres _ _ q2
          · rw [update_extents_vertices]; exact hpres _ _ q3
          · rw [update_extents_normals]; exact qn
        · simp only [List.mem_singleton] at hnew
          subst hnew
          refine ⟨?_, ?_, ?_, ?_⟩
          · rw [update_extents_vertices]
            show plook (pooledVerts m v1 v2 v3) tri.p1.hash = some tri.p1
            rw [ht1, hk1]; exact hc1
          · rw [update_extents_vertices]
            show plook (pooledVerts m v1 v2 v3) tri.p2.hash = some tri.p2
            rw [ht2, hk2]; exact hc2
          · rw [update_extents_vertices]
            show plook (pooledVerts m v1 v2 v3) tri.p3.hash = some tri.p3
            rw [ht3, hk3]; exact hc3
          · rw [update_extents_normals]
            show plook m.normals pooled.hash = some pooled
            rw [hph]; exact hn

theorem poolInv_empty : poolInv emptyModel := by
  refine ⟨?_, ?_, ?_⟩
  · intro p hp; simp [emptyModel] at hp
  · intro p hp; simp [emptyModel] at hp
  · intro t ht; simp [emptyModel] at ht

theorem poolInv_runAdds (reqs : List (Vector3 × Vector3 × Vector3 × Option Vector3)) :
    poolInv (runAdds reqs) := by
  rw [runAdds]
  have key : ∀ (rs : List (Vector3 × Vector3 × Vector3 × Option Vector3))
      (mm : Model3D), poolInv mm →
      poolInv (List.foldl
        (fun m r => (m.add_triangle r.1 r.2.1 r.2.2.1 r.2.2.2).1) mm rs) := by
    intro rs
    induction rs with
    | nil => intro mm hm; exact hm
    | cons r tl ih =>
      intro mm hm
      rw [List.foldl_cons]
      exact ih _ (add_triangle_poolInv _ _ _ _ _ hm)
  exact key reqs emptyModel poolInv_empty

theorem pooledVerts_some1 (m : Model3D) (v1 v2 v3 : Vector3) :
    (plook (pooledVerts m v1 v2 v3) v1.hash).isSome := by
  rw [pooledVerts, plook_poolInsert_pres _ _ _ _ _
    (plook_poolInsert_pres _ _ _ _ _ (plook_poolInsert_self m.vertices v1.hash v1))]
  rfl

theorem pooledVerts_some2 (m : Model3D) (v1 v2 v3 : Vector3) :
    (plook (pooledVerts m v1 v2 v3) v2.hash).isSome := by
  rw [pooledVerts, plook_poolInsert_pres _ _ _ _ _
    (plook_poolInsert_self (poolInsert m.vertices v1.hash v1) v2.hash v2)]
  rfl

theorem pooledVerts_some3 (m : Model3D) (v1 v2 v3 : Vector3) :
    (plook (pooledVerts m v1 v2 v3) v3.hash).isSome := by
  rw [pooledVerts, plook_poolInsert_self
    (poolInsert (poolInsert m.vertices v1.hash v1) v2.hash v2) v3.hash v3]
  rfl

/-- The model after inserting the same vertex triple twice into a fresh
mesh. -/
def doubleAdd (v1 v2 v3 : Vector3) (norm : Option Vector3) : Model3D :=
  ((emptyModel.add_triangle v1 v2 v3 norm).1.add_triangle v1 v2 v3 norm).1

theorem doubleAdd_shared (v1 v2 v3 : Vector3) (norm : Option Vector3)
    (hsucc : (emptyModel.add_triangle v1 v2 v3 norm).2 = none) :
    (doubleAdd v1 v2 v3 norm).vertices.length ≤ 3 ∧
    (doubleAdd v1 v2 v3 norm).triangles.length = 2 ∧
    ∃ t1 t2 : Triangle, (doubleAdd v1 v2 v3 norm).triangles = [t1, t2] ∧
      t1.p1 = t2.p1 ∧ t1.p2 = t2.p2 ∧ t1.p3 = t2.p3 := by
  cases hmk : mkTriangle (canon (pooledVerts emptyModel v1 v2 v3) v1)
      (canon (pooledVerts emptyModel v1 v2 v3) v2)
      (canon (pooledVerts emptyModel v1 v2 v3) v3) norm with
  | error e =>
    rw [add_triangle_error emptyModel v1 v2 v3 norm e hmk] at hsucc
    simp at hsucc
  | ok tri =>
    have hadd1 := add_triangle_okCase emptyModel v1 v2 v3 norm tri hmk
    have hfst1 : (emptyModel.add_triangle v1 v2 v3 norm).1 =
        addTriangleOk { emptyModel with
          vertices := pooledVerts emptyModel v1 v2 v3 } tri norm := by
      rw [hadd1]
    have hm1v : (addTriangleOk { emptyModel with
        vertices := pooledVerts emptyModel v1 v2 v3 } tri norm).vertices =
        pooledVerts emptyModel v1 v2 v3 := by
      rw [addTriangleOk]
      rw [addTriangleOkD_vertices]
    obtain ⟨trX1, htr1, f11, f12, f13⟩ :=
      addTriangleOkD_triangles
        { emptyModel with vertices := pooledVerts emptyModel v1 v2 v3 } tri
        (norm.getD tri.norm)
        (plook ({ emptyModel with
          vertices := pooledVerts emptyModel v1 v2 v3 } : Model3D).normals
          (norm.getD tri.norm).hash)
    have hm1t : (addTriangleOk { emptyModel with
        vertices := pooledVerts emptyModel v1 v2 v3 } tri norm).triangles =
        [trX1] := by
      rw [addTriangleOk, htr1]
      rfl
    have hP1 : pooledVerts ((emptyModel.add_triangle v1 v2 v3 norm).1) v1 v2 v3
        = pooledVerts emptyModel v1 v2 v3 := by
      rw [pooledVerts, hfst1, hm1v]
      rw [poolInsert_of_isSome _ _ _ (pooledVerts_some1 emptyModel v1 v2 v3)]
      rw [poolInsert_of_isSome _ _ _ (pooledVerts_some2 emptyModel v1 v2 v3)]
      rw [poolInsert_of_isSome _ _ _ (pooledVerts_some3 emptyModel v1 v2 v3)]
    have hmk2 : mkTriangle
        (canon (pooledVerts ((emptyModel.add_triangle v1 v2 v3 norm).1) v1 v2 v3) v1)
        (canon (pooledVerts ((emptyModel.add_triangle v1 v2 v3 norm).1) v1 v2 v3) v2)
        (canon (pooledVerts ((emptyModel.add_triangle v1 v2 v3 norm).1) v1 v2 v3) v3)
        norm = Except.ok tri := by
      rw [hP1]
      exact hmk
    have hadd2 := add_triangle_okCase ((emptyModel.add_triangle v1 v2 v3 norm).1)
      v1 v2 v3 norm tri hmk2
    have hd : doubleAdd v1 v2 v3 norm =
        addTriangleOk { (emptyModel.add_triangle v1 v2 v3 norm).1 with
          vertices := pooledVerts ((emptyModel.add_triangle v1 v2 v3 norm).1) v1 v2 v3 }
          tri norm := by
      rw [doubleAdd, hadd2]
    obtain ⟨trX2, htr2, f21, f22, f23⟩ :=
      addTriangleOkD_triangles
        { (emptyModel.add_triangle v1 v2 v3 norm).1 with
          vertices := pooledVerts ((emptyModel.add_triangle v1 v2 v3 norm).1) v1 v2 v3 }
        tri (norm.getD tri.norm)
        (plook ({ (emptyModel.add_triangle v1 v2 v3 norm).1 with
          vertices := pooledVerts ((emptyModel.add_triangle v1 v2 v3 norm).1) v1 v2 v3 }
            : Model3D).normals (norm.getD tri.norm).hash)
    have hdt : (doubleAdd v1 v2 v3 norm).triangles = [trX1, trX2] := by
      rw [hd, addTriangleOk, htr2]
      show ((emptyModel.add_triangle v1 v2 v3 norm).1).triangles ++ [trX2]
        = [trX1, trX2]
      rw [hfst1, hm1t]
      rfl
    have hdv : (doubleAdd v1 v2 v3 norm).vertices =
        pooledVerts emptyModel v1 v2 v3 := by
      rw [hd, addTriangleOk, addTriangleOkD_vertices]
      show pooledVerts ((emptyModel.add_triangle v1 v2 v3 norm).1) v1 v2 v3
        = pooledVerts emptyModel v1 v2 v3
      exact hP1
    refine ⟨?_, ?_, trX1, trX2, hdt, ?_, ?_, ?_⟩
    · rw [hdv, pooledVerts]
      have l3 := length_poolInsert_le
        (poolInsert (poolInsert emptyModel.vertices v1.hash v1) v2.hash v2)
        v3.hash v3
      have l2 := length_poolInsert_le
        (poolInsert emptyModel.vertices v1.hash v1) v2.hash v2
      have l1 := length_poolInsert_le emptyModel.vertices v1.hash v1
      have l0 : emptyModel.vertices.length = 0 := rfl
      omega
    · rw [hdt]
      rfl
    · rw [f11, f21]
    · rw [f12, f22]
    · rw [f13, f23]

/-- C4: every sequence of add_triangle calls from a fresh mesh keeps each
stored triangle's three vertices and its normal the canonical pooled
instance for their content keys (first-seen wins); consequently, inserting
the same (v1, v2, v3) triple twice into an empty mesh (when the first
insertion succeeds) yields a vertex pool of size at most 3 and a triangle
list of length 2 whose two triangles share the same three pooled vertex
instances. -/
theorem add_triangle_canonical_pooling :
    (∀ reqs : List (Vector3 × Vector3 × Vector3 × Option Vector3),
      ∀ t ∈ (runAdds reqs).triangles, pooledTri (runAdds reqs) t) ∧
    (∀ (v1 v2 v3 : Vector3) (norm : Option Vector3),
      (emptyModel.add_triangle v1 v2 v3 norm).2 = none →
      (doubleAdd v1 v2 v3 norm).vertices.length ≤ 3 ∧
      (doubleAdd v1 v2 v3 norm).triangles.length = 2 ∧
      ∃ t1 t2 : Triangle, (doubleAdd v1 v2 v3 norm).triangles = [t1, t2] ∧
        t1.p1 = t2.p1 ∧ t1.p2 = t2.p2 ∧ t1.p3 = t2.p3) :=
  ⟨fun reqs t ht => (poolInv_runAdds reqs).2.2 t ht,
   fun v1 v2 v3 norm h => doubleAdd_shared v1 v2 v3 norm h⟩

/-- Concrete evaluation of one successful insertion into a fresh mesh. -/
theorem demo_add_facts :
    (emptyModel.add_triangle ⟨0, 0, 0⟩ ⟨1, 0, 0⟩ ⟨0, 1, 0⟩
        (some ⟨0, 0, 1⟩)).2 = none ∧
    (runAdds [(⟨0, 0, 0⟩, ⟨1, 0, 0⟩, ⟨0, 1, 0⟩, some ⟨0, 0, 1⟩)]).triangles =
      [⟨⟨0, 0, 0⟩, ⟨1, 0, 0⟩, ⟨0, 1, 0⟩, ⟨0, 0, 1⟩⟩] := by
  have ha : (⟨0, 0, 0⟩ : Vector3).hash =
      ((false, 0), (false, 0), (false, 0)) := by
    norm_num [Vector3.hash, fmtCoord]
  have hb : (⟨1, 0, 0⟩ : Vector3).hash =
      ((false, 1000000), (false, 0), (false, 0)) := by
    norm_num [Vector3.hash, fmtCoord]
  have hc : (⟨0, 1, 0⟩ : Vector3).hash =
      ((false, 0), (false, 1000000), (false, 0)) := by
    norm_num [Vector3.hash, fmtCoord]
  have hP : pooledVerts emptyModel ⟨0, 0, 0⟩ ⟨1, 0, 0⟩ ⟨0, 1, 0⟩ =
      [(((false, 0), (false, 0), (false, 0)), ⟨0, 0, 0⟩),
       (((false, 1000000), (false, 0), (false, 0)), ⟨1, 0, 0⟩),
       (((false, 0), (false, 1000000), (false, 0)), ⟨0, 1, 0⟩)] := by
    simp [pooledVerts, emptyModel, poolInsert, plook, ha, hb, hc]
  have hca : canon
      [(((false, 0), (false, 0), (false, 0)), ⟨0, 0, 0⟩),
       (((false, 1000000), (false, 0), (false, 0)), ⟨1, 0, 0⟩),
       (((false, 0), (false, 1000000), (false, 0)), ⟨0, 1, 0⟩)] ⟨0, 0, 0⟩ =
      ⟨0, 0, 0⟩ := by
    simp [canon, plook, ha]
  have hcb : canon
      [(((false, 0), (false, 0), (false, 0)), ⟨0, 0, 0⟩),
       (((false, 1000000), (false, 0), (false, 0)), ⟨1, 0, 0⟩),
       (((false, 0), (false, 1000000), (false, 0)), ⟨0, 1, 0⟩)] ⟨1, 0, 0⟩ =
      ⟨1, 0, 0⟩ := by
    simp [canon, plook, hb]
  have hcc : canon
      [(((false, 0), (false, 0), (false, 0)), ⟨0, 0, 0⟩),
       (((false, 1000000), (false, 0), (false, 0)), ⟨1, 0, 0⟩),
       (((false, 0), (false, 1000000), (false, 0)), ⟨0, 1, 0⟩)] ⟨0, 1, 0⟩ =
      ⟨0, 1, 0⟩ := by
    simp [canon, plook, hc]
  have hmkd : mkTriangle ⟨0, 0, 0⟩ ⟨1, 0, 0⟩ ⟨0, 1, 0⟩ (some ⟨0, 0, 1⟩) =
      Except.ok ⟨⟨0, 0, 0⟩, ⟨1, 0, 0⟩, ⟨0, 1, 0⟩, ⟨0, 0, 1⟩⟩ := by
    norm_num [mkTriangle, veq, DIFFERENCE_LIMIT, Edge.contains, Vector3.sub,
      Vector3.cross, Vector3.lengthSq]
  have hmk2 : mkTriangle
      (canon (pooledVerts emptyModel ⟨0, 0, 0⟩ ⟨1, 0, 0⟩ ⟨0, 1, 0⟩) ⟨0, 0, 0⟩)
      (canon (pooledVerts emptyModel ⟨0, 0, 0⟩ ⟨1, 0, 0⟩ ⟨0, 1, 0⟩) ⟨1, 0, 0⟩)
      (canon (pooledVerts emptyModel ⟨0, 0, 0⟩ ⟨1, 0, 0⟩ ⟨0, 1, 0⟩) ⟨0, 1, 0⟩)
      (some ⟨0, 0, 1⟩) =
      Except.ok ⟨⟨0, 0, 0⟩, ⟨1, 0, 0⟩, ⟨0, 1, 0⟩, ⟨0, 0, 1⟩⟩ := by
    rw [hP, hca, hcb, hcc]
    exact hmkd
  have hok := add_triangle_okCase emptyModel ⟨0, 0, 0⟩ ⟨1, 0, 0⟩ ⟨0, 1, 0⟩
    (some ⟨0, 0, 1⟩) ⟨⟨0, 0, 0⟩, ⟨1, 0, 0⟩, ⟨0, 1, 0⟩, ⟨0, 0, 1⟩⟩ hmk2
  constructor
  · rw [hok]
  · have hrun : runAdds [(⟨0, 0, 0⟩, ⟨1, 0, 0⟩, ⟨0, 1, 0⟩, some ⟨0, 0, 1⟩)] =
        (emptyModel.add_triangle ⟨0, 0, 0⟩ ⟨1, 0, 0⟩ ⟨0, 1, 0⟩
          (some ⟨0, 0, 1⟩)).1 := rfl
    have hfst : (emptyModel.add_triangle ⟨0, 0, 0⟩ ⟨1, 0, 0⟩ ⟨0, 1, 0⟩
        (some ⟨0, 0, 1⟩)).1 =
        addTriangleOk { emptyModel with
          vertices := pooledVerts emptyModel ⟨0, 0, 0⟩ ⟨1, 0, 0⟩ ⟨0, 1, 0⟩ }
          ⟨⟨0, 0, 0⟩, ⟨1, 0, 0⟩, ⟨0, 1, 0⟩, ⟨0, 0, 1⟩⟩ (some ⟨0, 0, 1⟩) := by
      rw [hok]
    rw [hrun, hfst, addTriangleOk]
    show (addTriangleOkD
      { emptyModel with
        vertices := pooledVerts emptyModel ⟨0, 0, 0⟩ ⟨1, 0, 0⟩ ⟨0, 1, 0⟩ }
      ⟨⟨0, 0, 0⟩, ⟨1, 0, 0⟩, ⟨0, 1, 0⟩, ⟨0, 0, 1⟩⟩ ⟨0, 0, 1⟩ none).triangles =
      [⟨⟨0, 0, 0⟩, ⟨1, 0, 0⟩, ⟨0, 1, 0⟩, ⟨0, 0, 1⟩⟩]
    rw [addTriangleOkD, update_extents_triangles]
    rfl

/-- Witness for the C4 theorem at a concrete triple. -/
theorem add_triangle_canonical_pooling_witness :
    pooledTri (runAdds [(⟨0, 0, 0⟩, ⟨1, 0, 0⟩, ⟨0, 1, 0⟩, some ⟨0, 0, 1⟩)])
      ⟨⟨0, 0, 0⟩, ⟨1, 0, 0⟩, ⟨0, 1, 0⟩, ⟨0, 0, 1⟩⟩ ∧
    ((doubleAdd ⟨0, 0, 0⟩ ⟨1, 0, 0⟩ ⟨0, 1, 0⟩ (some ⟨0, 0, 1⟩)).vertices.length ≤ 3 ∧
     (doubleAdd ⟨0, 0, 0⟩ ⟨1, 0, 0⟩ ⟨0, 1, 0⟩ (some ⟨0, 0, 1⟩)).triangles.length = 2 ∧
     ∃ t1 t2 : Triangle,
       (doubleAdd ⟨0, 0, 0⟩ ⟨1, 0, 0⟩ ⟨0, 1, 0⟩ (some ⟨0, 0, 1⟩)).triangles = [t1, t2] ∧
       t1.p1 = t2.p1 ∧ t1.p2 = t2.p2 ∧ t1.p3 = t2.p3) :=
  ⟨add_triangle_canonical_pooling.1
     [(⟨0, 0, 0⟩, ⟨1, 0, 0⟩, ⟨0, 1, 0⟩, some ⟨0, 0, 1⟩)]
     ⟨⟨0, 0, 0⟩, ⟨1, 0, 0⟩, ⟨0, 1, 0⟩, ⟨0, 0, 1⟩⟩
     (by rw [demo_add_facts.2]; exact List.mem_singleton.2 rfl),
   add_triangle_canonical_pooling.2 ⟨0, 0, 0⟩ ⟨1, 0, 0⟩ ⟨0, 1, 0⟩
     (some ⟨0, 0, 1⟩) demo_add_facts.1⟩

end PyModel
